import Mathlib

/-!
The webhook receiver of git-on-epaper, `hook.go`.

A shallow embedding of `hook.go`: the two record types `Payload` and `Commit`,
the commit fetcher `getCommit`, the start of `main`, and the handler that
`main` registers for the path "/".

Everything the program reaches through the Go standard library (URL parsing,
the HTTP transport, JSON decoding) is a field of `World`, so every theorem
holds for all behaviours of those libraries.  A request holds the URL value
that `url.Parse` returns, and `http.Error` writes what the library writes: the
status code and the message followed by a newline.  The variable `commit` of
`main` is a Go pointer `*Commit`; it is embedded as `Option Commit`, `none`
being the nil pointer.  Effects are recorded, in program order, in a list of
`Event`s.
-/

namespace Hook

/-! ## Data model -/

/-- Go `error` values: only their identity matters here. -/
structure Error where
  msg : String
  deriving DecidableEq, Repr

/-- Go `[]byte`. -/
abbrev Bytes := List Nat

/-- The bytes of an ASCII string. -/
def asciiBytes (s : String) : Bytes := s.toList.map Char.toNat

/-- Go `time.Time`, reduced to its two numeric words; the zero value is the zero instant. -/
structure Time where
  wall : Nat := 0
  ext : Int := 0
  deriving DecidableEq, Repr

/-- The Go empty interface, as filled in by `encoding/json`. -/
inductive Any where
  | null
  | bool (b : Bool)
  | number (literal : String)
  | string (s : String)
  | array (xs : List Any)
  | object (kvs : List (String × Any))

/-- The anonymous struct of `Payload.Project`. -/
structure PayloadProject where
  ID : Int := 0
  Name : String := ""
  Description : String := ""
  WebURL : String := ""
  AvatarURL : Any := Any.null
  GitSSHURL : String := ""
  GitHTTPURL : String := ""
  Namespace : String := ""
  VisibilityLevel : Int := 0
  PathWithNamespace : String := ""
  DefaultBranch : String := ""
  Homepage : String := ""
  URL : String := ""
  SSHURL : String := ""
  HTTPURL : String := ""

/-- The anonymous struct of `Payload.Repository`. -/
structure PayloadRepository where
  Name : String := ""
  URL : String := ""
  Description : String := ""
  Homepage : String := ""
  GitHTTPURL : String := ""
  GitSSHURL : String := ""
  VisibilityLevel : Int := 0

/-- The anonymous struct of `Payload.Commits[i].Author`. -/
structure PayloadAuthor where
  Name : String := ""
  Email : String := ""

/-- The anonymous element struct of `Payload.Commits`. -/
structure PayloadCommit where
  ID : String := ""
  Message : String := ""
  Title : String := ""
  Timestamp : Time := {}
  URL : String := ""
  Author : PayloadAuthor := {}
  Added : List String := []
  Modified : List String := []
  Removed : List Any := []

/-- Go `type Payload struct`; the default of every field is its Go zero value. -/
structure Payload where
  ObjectKind : String := ""
  Before : String := ""
  After : String := ""
  Ref : String := ""
  CheckoutSha : String := ""
  UserID : Int := 0
  UserName : String := ""
  UserUsername : String := ""
  UserEmail : String := ""
  UserAvatar : String := ""
  ProjectID : Int := 0
  Project : PayloadProject := {}
  Repository : PayloadRepository := {}
  Commits : List PayloadCommit := []
  TotalCommitsCount : Int := 0

/-- The anonymous struct of `Commit.LastPipeline`. -/
structure LastPipeline where
  ID : Int := 0
  Ref : String := ""
  Sha : String := ""
  Status : String := ""
  deriving DecidableEq, Repr

/-- The anonymous struct of `Commit.Stats`. -/
structure Stats where
  Additions : Int := 0
  Deletions : Int := 0
  Total : Int := 0
  deriving DecidableEq, Repr

/-- Go `type Commit struct`; the default of every field is its Go zero value. -/
structure Commit where
  ID : String := ""
  ShortID : String := ""
  Title : String := ""
  AuthorName : String := ""
  AuthorEmail : String := ""
  CommitterName : String := ""
  CommitterEmail : String := ""
  CreatedAt : Time := {}
  Message : String := ""
  CommittedDate : Time := {}
  AuthoredDate : Time := {}
  ParentIds : List String := []
  LastPipeline : LastPipeline := {}
  Stats : Stats := {}
  Status : String := ""
  WebURL : String := ""
  deriving DecidableEq, Repr

/-- The Go zero value of `Commit`: the record whose every field has its zero value. -/
def Commit.zero : Commit := {}

/-- The three command-line flags, after `flag.Parse()`. -/
structure Flags where
  argGitlab : String := "https://gitlab.com"
  argProject : String := ""
  argToken : String := ""
  deriving DecidableEq, Repr

/-! ## The parts of the Go standard library that `hook.go` calls -/

/-- An `io.Reader` as seen by `ioutil.ReadAll`: the bytes it delivers and the
error, if any, that ends the reading. -/
structure Reader where
  data : Bytes := []
  err : Option Error := none
  deriving DecidableEq, Repr

/-- Go `ioutil.ReadAll`: the bytes read and the error. -/
def ReadAll (r : Reader) : Bytes × Option Error := (r.data, r.err)

/-- Go `http.Header`, as the list of its key and value pairs in order of addition. -/
abbrev Header := List (String × String)

/-- The token characters of RFC 7230 (Go `httpguts.IsTokenRune`, `validHeaderFieldByte`). -/
def isTokenChar (c : Char) : Bool :=
  c.isAlphanum || ("!#$%&*+-.^_|~".toList.contains c) || c.toNat == 39 || c.toNat == 96

/-- Go `http.validMethod`. -/
def validMethod (method : String) : Bool :=
  decide (method.length > 0) && method.toList.all isTokenChar

/-- The letter-case rewriting of Go `textproto.CanonicalMIMEHeaderKey`: upper case
at the start and after a hyphen, lower case elsewhere. -/
def canonicalChars : Bool → List Char → List Char
  | _, [] => []
  | upper, c :: cs => (if upper then c.toUpper else c.toLower) :: canonicalChars (c == '-') cs

/-- Go `textproto.CanonicalMIMEHeaderKey`: a key with a character that is not a
token character is returned as it is. -/
def CanonicalMIMEHeaderKey (s : String) : String :=
  if s.toList.all isTokenChar then String.mk (canonicalChars true s.toList) else s

/-- Go `Header.Add`: appends the value under the canonical form of the key. -/
def Header.Add (h : Header) (key value : String) : Header :=
  h ++ [(CanonicalMIMEHeaderKey key, value)]

/-- Go `Header.Values`: all the values stored under the canonical form of the key. -/
def Header.Values (h : Header) (key : String) : List String :=
  (h.filter (fun kv => kv.1 == CanonicalMIMEHeaderKey key)).map Prod.snd

/-- Go `url.URL`, for a URL without user information, opaque part or fragment:
`Path` is the decoded path, `RawPath` the encoded path when it differs from the
default encoding of `Path`. -/
structure URL where
  Scheme : String := ""
  Host : String := ""
  Path : String := ""
  RawPath : String := ""
  RawQuery : String := ""
  deriving DecidableEq, Repr

/-- The bytes of a string in UTF-8. -/
def utf8Bytes (s : String) : List Nat :=
  s.toList.flatMap (fun c => (String.utf8EncodeChar c).map UInt8.toNat)

/-- Whether a byte is one of the characters of the given text. -/
def byteIn (b : Nat) (chars : String) : Bool := chars.toList.any (fun c => c.toNat == b)

/-- Whether a byte is an ASCII letter or digit. -/
def isAlnumByte (b : Nat) : Bool :=
  (97 ≤ b && b ≤ 122) || (65 ≤ b && b ≤ 90) || (48 ≤ b && b ≤ 57)

/-- Go `url.shouldEscape`, in the modes `encodeHost` (`hostMode` true) and
`encodePath` (`hostMode` false). -/
def shouldEscape (b : Nat) (hostMode : Bool) : Bool :=
  if isAlnumByte b then false
  else if hostMode && (byteIn b "!$&()*+,;=:[]<>\"" || b == 39) then false
  else if byteIn b "-_.~" then false
  else if byteIn b "$&+,/:;=?@" && !hostMode then b == 63
  else true

/-- The digits of Go `url.upperhex`. -/
def upperhex (n : Nat) : Char := "0123456789ABCDEF".toList.getD n '0'

/-- Go `url.escape`, in the two modes of `shouldEscape`. -/
def escape (s : String) (hostMode : Bool) : String :=
  String.mk ((utf8Bytes s).flatMap (fun b =>
    if shouldEscape b hostMode then ['%', upperhex (b / 16), upperhex (b % 16)]
    else [Char.ofNat b]))

/-- Go `url.ishex` and `url.unhex`: the value of a hexadecimal digit. -/
def unhex (b : Nat) : Option Nat :=
  if 48 ≤ b && b ≤ 57 then some (b - 48)
  else if 97 ≤ b && b ≤ 102 then some (b - 97 + 10)
  else if 65 ≤ b && b ≤ 70 then some (b - 65 + 10)
  else none

/-- Go `url.unescape` in the mode `encodePath`, on bytes: `none` for a percent
sign that is not followed by two hexadecimal digits. -/
def unescape : List Nat → Option (List Nat)
  | [] => some []
  | b :: rest =>
    if b = 37 then
      match rest with
      | x :: y :: rest2 =>
        match unhex x, unhex y, unescape rest2 with
        | some hx, some hy, some tail => some ((hx * 16 + hy) :: tail)
        | _, _, _ => none
      | _ => none
    else
      match unescape rest with
      | some tail => some (b :: tail)
      | none => none

/-- Go `url.validEncoded` in the mode `encodePath`. -/
def validEncoded (s : String) : Bool :=
  (utf8Bytes s).all (fun b => byteIn b "!$&()*+,;=:@[]%" || b == 39 || !shouldEscape b false)

/-- Go `URL.EscapedPath`. -/
def URL.EscapedPath (u : URL) : String :=
  if u.RawPath != "" && validEncoded u.RawPath
      && unescape (utf8Bytes u.RawPath) == some (utf8Bytes u.Path) then
    u.RawPath
  else if u.Path == "*" then "*"
  else escape u.Path false

/-- Go `URL.String`, for the URLs of the structure `URL`. -/
def URL.String (u : URL) : String :=
  let scheme := if u.Scheme != "" then u.Scheme ++ ":" else ""
  let slashes :=
    if (u.Scheme != "" || u.Host != "") && (u.Host != "" || u.Path != "") then "//" else ""
  let host := if u.Scheme != "" || u.Host != "" then escape u.Host true else ""
  let path := u.EscapedPath
  let sep := if path != "" && path.toList.head? != some '/' && u.Host != "" then "/" else ""
  let dot :=
    if scheme ++ slashes ++ host ++ sep == "" && (path.toList.takeWhile (· != '/')).contains ':'
    then "./" else ""
  let query := if u.RawQuery != "" then "?" ++ u.RawQuery else ""
  scheme ++ slashes ++ host ++ sep ++ dot ++ path ++ query

/-- The index of the last occurrence of a character, `-1` when there is none
(Go `strings.LastIndex` for a one-character pattern). -/
def lastIndex (s : String) (c : Char) : Int :=
  (((s.toList.enum.filter (fun p => p.2 == c)).map (fun p => (p.1 : Int))).getLast?).getD (-1)

/-- Go `http.hasPort`. -/
def hasPort (s : String) : Bool := lastIndex s ':' > lastIndex s ']'

/-- Go `http.removeEmptyPort`. -/
def removeEmptyPort (host : String) : String :=
  if hasPort host then
    (if host.toList.getLast? = some ':' then String.mk host.toList.dropLast else host)
  else host

/-- Go `http.Request`, for a client request. -/
structure Request where
  Method : String
  URL : URL
  Header : Header := []
  Body : Option Reader := none
  deriving DecidableEq, Repr

/-- Go `http.Response`. -/
structure Response where
  StatusCode : Int := 200
  Body : Reader := {}
  deriving DecidableEq, Repr

/-- The behaviour of the standard library and of the network during one run of
`getCommit` or of a handler. -/
structure World where
  /-- Go `url.Parse`. -/
  urlParse : String → Except Error URL
  /-- Go `http.Client.Do`. -/
  clientDo : Request → Except Error Response
  /-- Go `json.Unmarshal` into a zero `Commit`. -/
  unmarshalCommit : Bytes → Except Error Commit
  /-- Go `json.Unmarshal` into a zero `Payload`. -/
  unmarshalPayload : Bytes → Except Error Payload

/-- Go `http.NewRequest`: the method is checked, the URL string is parsed, and
the request holds the parsed URL, an empty port removed from its host. -/
def NewRequest (w : World) (method url : String) (body : Option Reader) : Except Error Request :=
  let method := if method == "" then "GET" else method
  if !validMethod method then
    .error ⟨"net/http: invalid method"⟩
  else
    match w.urlParse url with
    | .error err => .error err
    | .ok u =>
      .ok { Method := method, URL := { u with Host := removeEmptyPort u.Host }, Header := [],
            Body := body }

/-- Go `http.StatusBadRequest`. -/
def StatusBadRequest : Nat := 400

/-! ## Effects -/

/-- The observable steps of the program, in the order the source takes them. -/
inductive Event where
  /-- The call `ioutil.ReadAll(r.Body)` of the handler. -/
  | readRequestBody
  /-- The call `json.Unmarshal(body, &payload)`. -/
  | unmarshalPayload (body : Bytes)
  /-- A call of `log.Printf`, with its format string. -/
  | logPrintf (format : String)
  /-- A header field set on the `http.ResponseWriter`. -/
  | setHeader (key value : String)
  /-- The call `w.WriteHeader(code)`: the status code of the response. -/
  | writeHeader (code : Nat)
  /-- Text written to the body of the response. -/
  | write (data : String)
  /-- A call of `getCommit`, with its argument. -/
  | getCommit (id : String)
  /-- The call of `http.NewRequest`; `hasBody` tells whether the body argument is non-nil. -/
  | newRequest (method url : String) (hasBody : Bool)
  /-- The call `client.Do(req)`: the outbound network call. -/
  | clientDo (req : Request)
  /-- The call `ioutil.ReadAll(resp.Body)`. -/
  | readResponseBody
  /-- The call `json.Unmarshal(body, &commit)`. -/
  | unmarshalCommit (body : Bytes)
  /-- A nil-pointer dereference. -/
  | nilDereference
  deriving DecidableEq, Repr

/-- Go `http.Error`: it sets the two header fields of a plain-text answer, writes
the status code, and prints the message with `fmt.Fprintln`, that is, followed
by a newline.  Its deletion of header fields that are not set is left out. -/
def httpError (msg : String) (code : Nat) : List Event :=
  [.setHeader "Content-Type" "text/plain; charset=utf-8",
   .setHeader "X-Content-Type-Options" "nosniff",
   .writeHeader code,
   .write (msg ++ "\n")]

/-- What `getCommit` returns, the pair `(*Commit, error)`, and what it did. -/
structure FetchResult where
  commit : Option Commit
  err : Option Error
  trace : List Event

/-- The URL of `getCommit`:
`fmt.Sprintf("%s/api/v4/projects/%s/repository/commits/%s", *argGitlab, *argProject, id)`. -/
def commitURL (f : Flags) (id : String) : String :=
  f.argGitlab ++ "/api/v4/projects/" ++ f.argProject ++ "/repository/commits/" ++ id

/-- Go `func getCommit(id string) (*Commit, error)`. -/
def getCommit (w : World) (f : Flags) (id : String) : FetchResult :=
  let t0 := [Event.getCommit id, Event.newRequest "GET" (commitURL f id) false]
  match NewRequest w "GET" (commitURL f id) none with
  | .error err => ⟨none, some err, t0⟩
  | .ok req0 =>
    let req := { req0 with Header := req0.Header.Add "PRIVATE-TOKEN" f.argToken }
    let t1 := t0 ++ [Event.clientDo req]
    match w.clientDo req with
    | .error err => ⟨none, some err, t1⟩
    | .ok resp =>
      let t2 := t1 ++ [Event.readResponseBody]
      match ReadAll resp.Body with
      | (_, some err) => ⟨none, some err, t2⟩
      | (body, none) =>
        let t3 := t2 ++ [Event.unmarshalCommit body]
        match w.unmarshalCommit body with
        | .error err => ⟨none, some err, t3⟩
        | .ok commit => ⟨some commit, none, t3⟩

/-! ## `main` -/

/-- The variable `commit` of `main` after a step, and what the step did. -/
structure Outcome where
  commit : Option Commit
  trace : List Event

/-- A Go assignment to a pointer variable: the old pointer is dropped, whatever the new one is. -/
def assign (_old new : Option Commit) : Option Commit := new

/-- The start of `main`, up to the registration of the handlers:
the variable `commit` is set to a pointer to a zero `Commit`, the flags are
parsed, and `commit, _ = getCommit("master")` is run. -/
def mainStart (w : World) (f : Flags) : Outcome :=
  let commit : Option Commit := some Commit.zero
  let r := getCommit w f "master"
  let commit := assign commit r.commit
  ⟨commit, r.trace⟩

/-- An inbound request, as far as the handler for "/" looks at it. -/
structure HttpRequest where
  Method : String
  Body : Reader := {}
  deriving DecidableEq, Repr

/-- The handler that `main` registers for "/"; `commit` is the captured variable of `main`. -/
def handleRoot (w : World) (f : Flags) (commit : Option Commit) (r : HttpRequest) : Outcome :=
  if r.Method != "POST" then
    ⟨commit, []⟩
  else
    let t0 := [Event.readRequestBody]
    match ReadAll r.Body with
    | (_, some _) =>
      ⟨commit, t0 ++ [Event.logPrintf "Error reading body: %v"]
        ++ httpError "can't read body" StatusBadRequest⟩
    | (body, none) =>
      let t1 := t0 ++ [Event.unmarshalPayload body]
      match w.unmarshalPayload body with
      | .error _ => ⟨commit, t1 ++ [Event.logPrintf "Error unmarshaling JSON body: %v"]⟩
      | .ok payload =>
        if h : payload.Commits.length = 0 then
          ⟨commit, t1 ++ [Event.logPrintf "no commits, skipping"]⟩
        else
          have h0 : 0 < payload.Commits.length := Nat.pos_of_ne_zero h
          let t2 := t1 ++ [Event.logPrintf "%v - added: %+v, removed: %+v"]
          let res := getCommit w f payload.Commits[0].ID
          let commit := assign commit res.commit
          let t3 := t2 ++ res.trace
          match res.err with
          | some _ => ⟨commit, t3 ++ [Event.logPrintf "Error getting commit: %v"]⟩
          | none =>
            match commit with
            | none => ⟨commit, t3 ++ [Event.nilDereference]⟩
            | some _ => ⟨commit, t3 ++ [Event.logPrintf "added: %d, removed: %d"]⟩

/-! ## Observations on a trace -/

/-- The ids passed to `getCommit`, one per call. -/
def fetchCalls (t : List Event) : List String :=
  t.filterMap (fun e => match e with | .getCommit id => some id | _ => none)

/-- The number of reads of the inbound request body. -/
def bodyReads (t : List Event) : Nat :=
  t.count Event.readRequestBody

/-- The writes to the `http.ResponseWriter`, of any kind: header fields, status
code and body text. -/
def responseWrites (t : List Event) : List Event :=
  t.filter (fun e => match e with
    | .setHeader _ _ => true
    | .writeHeader _ => true
    | .write _ => true
    | _ => false)

/-- The status codes written to the response. -/
def statusWritten (t : List Event) : List Nat :=
  t.filterMap (fun e => match e with | .writeHeader code => some code | _ => none)

/-- The body of the response: all the text written to it. -/
def bodyWritten (t : List Event) : String :=
  String.join (t.filterMap (fun e => match e with | .write data => some data | _ => none))

/-- The requests handed to the transport, one per network call. -/
def networkCalls (t : List Event) : List Request :=
  t.filterMap (fun e => match e with | .clientDo req => some req | _ => none)

/-- Whether the step ran into a nil-pointer dereference. -/
def panics (t : List Event) : Bool :=
  t.contains Event.nilDereference

/-! ## The stages of the fetcher, in the words of the specification -/

/-- The four stages of the commit fetcher. -/
inductive Stage where
  | construct
  | transport
  | readBody
  | parse
  deriving DecidableEq, Repr

/-- The stages that a run of `getCommit` entered, in order. -/
def stagesRun (t : List Event) : List Stage :=
  t.filterMap (fun e => match e with
    | .newRequest _ _ _ => some Stage.construct
    | .clientDo _ => some Stage.transport
    | .readResponseBody => some Stage.readBody
    | .unmarshalCommit _ => some Stage.parse
    | _ => none)

/-- The stages from the first one through the given one; all four for `none`. -/
def stagesThrough : Option Stage → List Stage
  | some .construct => [.construct]
  | some .transport => [.construct, .transport]
  | some .readBody => [.construct, .transport, .readBody]
  | some .parse => [.construct, .transport, .readBody, .parse]
  | none => [.construct, .transport, .readBody, .parse]

/-- The request described by the specification, for the parsed commit URL `u`:
a GET of that URL that carries the access token and has no body. -/
def specRequest (f : Flags) (u : URL) : Request :=
  { Method := "GET", URL := { u with Host := removeEmptyPort u.Host },
    Header := [("Private-Token", f.argToken)], Body := none }

/-- The request that the transport stage sends: the constructed request with the
access token attached. -/
def withToken (f : Flags) (req : Request) : Request :=
  { req with Header := req.Header ++ [("Private-Token", f.argToken)] }

/-- The first stage that fails, with its error, taking the stages in the order
request construction, transport, response-body read, JSON parse; `none` when
all four succeed. -/
def firstFailure (w : World) (f : Flags) (id : String) : Option (Stage × Error) :=
  match NewRequest w "GET" (commitURL f id) none with
  | .error e => some (.construct, e)
  | .ok req =>
    match w.clientDo (withToken f req) with
    | .error e => some (.transport, e)
    | .ok resp =>
      match resp.Body.err with
      | some e => some (.readBody, e)
      | none =>
        match w.unmarshalCommit resp.Body.data with
        | .error e => some (.parse, e)
        | .ok _ => none

/-- The record that the JSON parse stage yields from the body that the transport delivers. -/
def parsedRecord (w : World) (f : Flags) (id : String) : Option Commit :=
  match NewRequest w "GET" (commitURL f id) none with
  | .error _ => none
  | .ok req =>
    match w.clientDo (withToken f req) with
    | .ok resp =>
      match w.unmarshalCommit resp.Body.data with
      | .ok c => some c
      | .error _ => none
    | .error _ => none

/-! ## Concrete requests and worlds -/

/-- The push body `\x7b"commits":[\x7b"id":"abc123","title":"fix bug"\x7d]\x7d`. -/
def pushBody : Bytes :=
  asciiBytes "\x7b\"commits\":[\x7b\"id\":\"abc123\",\"title\":\"fix bug\"\x7d]\x7d"

/-- What `json.Unmarshal` makes of `pushBody`. -/
def pushPayload : Payload := { Commits := [{ ID := "abc123", Title := "fix bug" }] }

/-- The push body `\x7b"commits":[\x7b"title":"fix bug"\x7d]\x7d`, whose one commit has no id. -/
def noIdBody : Bytes := asciiBytes "\x7b\"commits\":[\x7b\"title\":\"fix bug\"\x7d]\x7d"

/-- What `json.Unmarshal` makes of `noIdBody`: the missing id is left at its zero value. -/
def noIdPayload : Payload := { Commits := [{ Title := "fix bug" }] }

/-- The push body `\x7b"commits":[]\x7d`. -/
def emptyBody : Bytes := asciiBytes "\x7b\"commits\":[]\x7d"

/-- The push body
`\x7b"commits":[\x7b"id":"c0ffee"\x7d,\x7b"id":"deadbeef"\x7d,\x7b"id":"f00d"\x7d]\x7d`,
with three commits of different ids. -/
def threeBody : Bytes :=
  asciiBytes "\x7b\"commits\":[\x7b\"id\":\"c0ffee\"\x7d,\x7b\"id\":\"deadbeef\"\x7d,\x7b\"id\":\"f00d\"\x7d]\x7d"

/-- What `json.Unmarshal` makes of `threeBody`. -/
def threePayload : Payload := { Commits := [{ ID := "c0ffee" }, { ID := "deadbeef" }, { ID := "f00d" }] }

/-- A body that is not JSON. -/
def brokenBody : Bytes := asciiBytes "commits, but no JSON"

/-- The API answer `\x7b"id":"abc123","stats":\x7b"additions":3,"deletions":1,"total":4\x7d\x7d`. -/
def apiBody : Bytes :=
  asciiBytes "\x7b\"id\":\"abc123\",\"stats\":\x7b\"additions\":3,\"deletions\":1,\"total\":4\x7d\x7d"

/-- What `json.Unmarshal` makes of `apiBody`. -/
def apiCommit : Commit := { ID := "abc123", Stats := { Additions := 3, Deletions := 1, Total := 4 } }

/-- The decoding of the push bodies above; every other body is taken as malformed. -/
def decodePayload (b : Bytes) : Except Error Payload :=
  if b = pushBody then .ok pushPayload
  else if b = noIdBody then .ok noIdPayload
  else if b = emptyBody then .ok {}
  else if b = threeBody then .ok threePayload
  else .error ⟨"invalid character"⟩

/-- The decoding of the API answer above; every other body is taken as malformed. -/
def decodeCommit (b : Bytes) : Except Error Commit :=
  if b = apiBody then .ok apiCommit else .error ⟨"invalid character"⟩

/-- Go `url.Parse` on the URLs of the concrete runs: a scheme of letters, which is
lower-cased, then "://", a host of letters, digits, dots and hyphens, and a
path of printable ASCII characters without percent sign, question mark or hash
sign.  The path is stored as it is, and also as `RawPath` when its default
encoding differs from it.  The concrete worlds reject every other string. -/
def parseAbsolute (s : String) : Except Error URL :=
  let scheme := s.toList.takeWhile (fun c => c != ':')
  match s.toList.drop scheme.length with
  | ':' :: '/' :: '/' :: rest =>
    let host := rest.takeWhile (fun c => c != '/')
    let path := String.mk (rest.drop host.length)
    if !scheme.isEmpty && scheme.all Char.isAlpha
        && host.all (fun c => c.isAlphanum || c == '.' || c == '-')
        && path.toList.all (fun c => 32 ≤ c.toNat && c.toNat < 127 && !("%?#".toList.contains c)) then
      .ok { Scheme := String.mk (scheme.map Char.toLower), Host := String.mk host, Path := path,
            RawPath := if escape path false == path then "" else path }
    else
      .error ⟨"parse: not a URL of the concrete runs"⟩
  | _ => .error ⟨"parse: not a URL of the concrete runs"⟩

/-- A world in which the API answers every request with `apiBody`. -/
def upWorld : World :=
  { urlParse := parseAbsolute
    clientDo := fun _ => .ok { StatusCode := 200, Body := { data := apiBody } }
    unmarshalCommit := decodeCommit
    unmarshalPayload := decodePayload }

/-- A world in which the API cannot be reached. -/
def downWorld : World :=
  { urlParse := parseAbsolute
    clientDo := fun _ => .error ⟨"dial tcp: connection refused"⟩
    unmarshalCommit := decodeCommit
    unmarshalPayload := decodePayload }

/-- Flags that name a project and a token. -/
def labFlags : Flags := { argProject := "42", argToken := "glpat-t0ken" }

/-- A commit fetched earlier. -/
def oldCommit : Commit := { ID := "0ld", Title := "earlier commit", Stats := { Additions := 7, Deletions := 2, Total := 9 } }

/-- A POST request that delivers the given body. -/
def postOf (b : Bytes) : HttpRequest := { Method := "POST", Body := { data := b } }

/-- A POST request whose body cannot be read. -/
def unreadablePost : HttpRequest := { Method := "POST", Body := { err := some ⟨"unexpected EOF"⟩ } }

/-- The commit ids of a decoded payload, in order; `none` when decoding failed. -/
def decodedIds : Except Error Payload → Option (List String)
  | .ok p => some (p.Commits.map (fun c => c.ID))
  | .error _ => none

/-! ## Basic facts -/

theorem validMethod_GET : validMethod "GET" = true := by decide

theorem canonical_private_token : CanonicalMIMEHeaderKey "PRIVATE-TOKEN" = "Private-Token" := by
  decide

theorem NewRequest_GET (w : World) (url : String) :
    NewRequest w "GET" url none =
      match w.urlParse url with
      | .error err => .error err
      | .ok u => .ok ⟨"GET", { u with Host := removeEmptyPort u.Host }, [], none⟩ := by
  unfold NewRequest
  have h1 : (if ("GET" == "") = true then "GET" else "GET") = "GET" := by simp
  simp only [h1, validMethod_GET]
  rfl

theorem withToken_constructed (f : Flags) (u : URL) :
    withToken f ⟨"GET", { u with Host := removeEmptyPort u.Host }, [], none⟩ = specRequest f u := rfl

/-- The run of `getCommit`, stage by stage. -/
theorem getCommit_eq (w : World) (f : Flags) (id : String) :
    getCommit w f id =
      match w.urlParse (commitURL f id) with
      | .error e => ⟨none, some e, [.getCommit id, .newRequest "GET" (commitURL f id) false]⟩
      | .ok u =>
        match w.clientDo (specRequest f u) with
        | .error e => ⟨none, some e, [.getCommit id, .newRequest "GET" (commitURL f id) false,
            .clientDo (specRequest f u)]⟩
        | .ok resp =>
          match resp.Body.err with
          | some e => ⟨none, some e, [.getCommit id, .newRequest "GET" (commitURL f id) false,
              .clientDo (specRequest f u), .readResponseBody]⟩
          | none =>
            match w.unmarshalCommit resp.Body.data with
            | .error e => ⟨none, some e, [.getCommit id, .newRequest "GET" (commitURL f id) false,
                .clientDo (specRequest f u), .readResponseBody, .unmarshalCommit resp.Body.data]⟩
            | .ok c => ⟨some c, none, [.getCommit id, .newRequest "GET" (commitURL f id) false,
                .clientDo (specRequest f u), .readResponseBody, .unmarshalCommit resp.Body.data]⟩ := by
  unfold getCommit
  rw [NewRequest_GET]
  cases h1 : w.urlParse (commitURL f id) with
  | error e => rfl
  | ok u =>
    have hreq : (⟨"GET", { u with Host := removeEmptyPort u.Host },
        Header.Add [] "PRIVATE-TOKEN" f.argToken, none⟩ : Request) = specRequest f u := by
      simp [specRequest, Header.Add, canonical_private_token]
    simp only [hreq]
    cases h2 : w.clientDo (specRequest f u) with
    | error e => rfl
    | ok resp =>
      simp only [ReadAll]
      cases h3 : resp.Body.err with
      | some e => simp [h3]
      | none =>
        simp only [h3]
        cases h4 : w.unmarshalCommit resp.Body.data with
        | error e => simp [h4]
        | ok c => simp [h4]

theorem getCommit_fetchCalls (w : World) (f : Flags) (id : String) :
    fetchCalls (getCommit w f id).trace = [id] := by
  rw [getCommit_eq]
  repeat' split
  all_goals rfl

theorem getCommit_quiet (w : World) (f : Flags) (id : String) :
    responseWrites (getCommit w f id).trace = [] ∧ panics (getCommit w f id).trace = false
      ∧ bodyReads (getCommit w f id).trace = 0 := by
  rw [getCommit_eq]
  repeat' split
  all_goals exact ⟨rfl, by simp [panics], by simp [bodyReads]⟩

/-- The two shapes of the pair that `getCommit` returns. -/
theorem getCommit_result (w : World) (f : Flags) (id : String) :
    ((getCommit w f id).commit = none ∧ ∃ e, (getCommit w f id).err = some e) ∨
    ((getCommit w f id).err = none ∧ ∃ c, (getCommit w f id).commit = some c) := by
  rw [getCommit_eq]
  repeat' split
  all_goals first
    | exact Or.inl ⟨rfl, _, rfl⟩
    | exact Or.inr ⟨rfl, _, rfl⟩

/-- The run of the handler on a POST request whose body parses to a payload with commits. -/
theorem handleRoot_fetch (w : World) (f : Flags) (s : Option Commit) (r : HttpRequest) (p : Payload)
    (hm : r.Method = "POST") (hb : r.Body.err = none)
    (hp : w.unmarshalPayload r.Body.data = .ok p) (h : 0 < p.Commits.length) :
    handleRoot w f s r =
      ⟨(getCommit w f p.Commits[0].ID).commit,
        [.readRequestBody, .unmarshalPayload r.Body.data, .logPrintf "%v - added: %+v, removed: %+v"]
          ++ (getCommit w f p.Commits[0].ID).trace
          ++ [match (getCommit w f p.Commits[0].ID).err with
              | some _ => Event.logPrintf "Error getting commit: %v"
              | none => Event.logPrintf "added: %d, removed: %d"]⟩ := by
  have hne : ¬ p.Commits.length = 0 := Nat.pos_iff_ne_zero.mp h
  unfold handleRoot
  simp only [hm, bne_self_eq_false, Bool.false_eq_true, if_false, ReadAll, hb, hp, dif_neg hne, assign]
  rcases getCommit_result w f p.Commits[0].ID with ⟨h1, e, h2⟩ | ⟨h1, c, h2⟩
  · simp [h2]
  · simp [h1, h2]

theorem mainStart_eq (w : World) (f : Flags) :
    mainStart w f = ⟨(getCommit w f "master").commit, (getCommit w f "master").trace⟩ := rfl

theorem fetchCalls_append (a b : List Event) : fetchCalls (a ++ b) = fetchCalls a ++ fetchCalls b := by
  simp [fetchCalls, List.filterMap_append]

theorem responseWrites_append (a b : List Event) :
    responseWrites (a ++ b) = responseWrites a ++ responseWrites b := by
  simp [responseWrites, List.filter_append]

theorem panics_append (a b : List Event) : panics (a ++ b) = (panics a || panics b) := by
  simp [panics]

/-- The ids that the handler passes to `getCommit` on a POST request whose body
parses to a payload with commits. -/
theorem handleRoot_fetchCalls (w : World) (f : Flags) (s : Option Commit) (r : HttpRequest)
    (p : Payload) (hm : r.Method = "POST") (hb : r.Body.err = none)
    (hp : w.unmarshalPayload r.Body.data = .ok p) (h : 0 < p.Commits.length) :
    fetchCalls (handleRoot w f s r).trace = [p.Commits[0].ID] := by
  rw [handleRoot_fetch w f s r p hm hb hp h]
  simp only [fetchCalls_append, getCommit_fetchCalls]
  cases (getCommit w f p.Commits[0].ID).err <;> rfl

theorem handleRoot_non_post (w : World) (f : Flags) (s : Option Commit) (r : HttpRequest)
    (hm : r.Method ≠ "POST") : handleRoot w f s r = ⟨s, []⟩ := by
  have h : (r.Method != "POST") = true := by simpa using hm
  unfold handleRoot
  simp only [h, if_true]

theorem handleRoot_read_error (w : World) (f : Flags) (s : Option Commit) (r : HttpRequest)
    (e : Error) (hm : r.Method = "POST") (hb : r.Body.err = some e) :
    handleRoot w f s r =
      ⟨s, [.readRequestBody, .logPrintf "Error reading body: %v",
        .setHeader "Content-Type" "text/plain; charset=utf-8",
        .setHeader "X-Content-Type-Options" "nosniff",
        .writeHeader 400, .write "can't read body\n"]⟩ := by
  unfold handleRoot
  simp only [hm, bne_self_eq_false, Bool.false_eq_true, if_false, ReadAll, hb]
  rfl

theorem handleRoot_parse_error (w : World) (f : Flags) (s : Option Commit) (r : HttpRequest)
    (e : Error) (hm : r.Method = "POST") (hb : r.Body.err = none)
    (hp : w.unmarshalPayload r.Body.data = .error e) :
    handleRoot w f s r =
      ⟨s, [.readRequestBody, .unmarshalPayload r.Body.data,
        .logPrintf "Error unmarshaling JSON body: %v"]⟩ := by
  unfold handleRoot
  simp only [hm, bne_self_eq_false, Bool.false_eq_true, if_false, ReadAll, hb, hp]
  rfl

theorem handleRoot_no_commits (w : World) (f : Flags) (s : Option Commit) (r : HttpRequest)
    (p : Payload) (hm : r.Method = "POST") (hb : r.Body.err = none)
    (hp : w.unmarshalPayload r.Body.data = .ok p) (hlen : p.Commits.length = 0) :
    handleRoot w f s r =
      ⟨s, [.readRequestBody, .unmarshalPayload r.Body.data, .logPrintf "no commits, skipping"]⟩ := by
  unfold handleRoot
  simp only [hm, bne_self_eq_false, Bool.false_eq_true, if_false, ReadAll, hb, hp, dif_pos hlen]
  rfl

/-- After a failed fetch the variable `commit` is the nil pointer, whatever it was before. -/
theorem handleRoot_commit_after_fetch_error (w : World) (f : Flags) (s : Option Commit)
    (r : HttpRequest) (p : Payload) (hm : r.Method = "POST") (hb : r.Body.err = none)
    (hp : w.unmarshalPayload r.Body.data = .ok p) (h : 0 < p.Commits.length)
    (he : (getCommit w f p.Commits[0].ID).err ≠ none) :
    (handleRoot w f s r).commit = none := by
  rw [handleRoot_fetch w f s r p hm hb hp h]
  rcases getCommit_result w f p.Commits[0].ID with ⟨h1, _⟩ | ⟨h1, _⟩
  · exact h1
  · exact absurd h1 he

/-- After a failed startup fetch the variable `commit` is the nil pointer. -/
theorem mainStart_commit_after_fetch_error (w : World) (f : Flags)
    (he : (getCommit w f "master").err ≠ none) : (mainStart w f).commit = none := by
  rw [mainStart_eq]
  rcases getCommit_result w f "master" with ⟨h1, _⟩ | ⟨h1, _⟩
  · exact h1
  · exact absurd h1 he

theorem statusWritten_of_no_writes (t : List Event) (h : responseWrites t = []) :
    statusWritten t = [] := by
  induction t with
  | nil => rfl
  | cons e t ih =>
    cases e <;> simp_all [responseWrites, statusWritten, List.filter_cons]

theorem bodyWritten_of_no_writes (t : List Event) (h : responseWrites t = []) :
    bodyWritten t = "" := by
  have : t.filterMap (fun e => match e with | .write data => some data | _ => none) = [] := by
    induction t with
    | nil => rfl
    | cons e t ih =>
      cases e <;> simp_all [responseWrites, List.filter_cons]
  rw [bodyWritten, this]
  rfl

theorem bodyWritten_read_error :
    bodyWritten ([.readRequestBody, .logPrintf "Error reading body: %v"]
      ++ httpError "can't read body" 400) = "can't read body\n" := by
  decide

/-! ## The claims -/

/-- C1, at an input where the code departs from it: a commit is stored, a POST
request arrives whose body is read and parses to a payload with one commit, and
the fetch fails in the transport.  After the handler the variable `commit` is
the nil pointer, not the commit stored before. -/
theorem handleRoot_fetch_failure_loses_commit :
    (postOf pushBody).Method = "POST" ∧ (postOf pushBody).Body.err = none ∧
    decodedIds (downWorld.unmarshalPayload (postOf pushBody).Body.data) = some ["abc123"] ∧
    (getCommit downWorld {} "abc123").err = some ⟨"dial tcp: connection refused"⟩ ∧
    (handleRoot downWorld {} (some oldCommit) (postOf pushBody)).commit = none ∧
    (handleRoot downWorld {} (some oldCommit) (postOf pushBody)).commit ≠ some oldCommit := by
  refine ⟨rfl, rfl, by decide, by decide, by decide, by decide⟩

/-- C2: on a POST request whose body parses to a payload with a non-empty
commit list, the handler calls `getCommit` exactly once, with the id of the
commit at index 0 of the list. -/
theorem handleRoot_fetches_first_commit (w : World) (f : Flags) (s : Option Commit)
    (r : HttpRequest) (p : Payload) (hm : r.Method = "POST") (hb : r.Body.err = none)
    (hp : w.unmarshalPayload r.Body.data = .ok p) (h : 0 < p.Commits.length) :
    fetchCalls (handleRoot w f s r).trace = [p.Commits[0].ID] ∧
    (fetchCalls (handleRoot w f s r).trace).length = 1 := by
  have h1 := handleRoot_fetchCalls w f s r p hm hb hp h
  exact ⟨h1, by rw [h1]; rfl⟩

theorem handleRoot_fetches_first_commit_witness :
    decodedIds (upWorld.unmarshalPayload (postOf threeBody).Body.data)
      = some ["c0ffee", "deadbeef", "f00d"] ∧
    fetchCalls (handleRoot upWorld {} (some oldCommit) (postOf threeBody)).trace = ["c0ffee"] ∧
    (fetchCalls (handleRoot upWorld {} (some oldCommit) (postOf threeBody)).trace).length = 1 :=
  ⟨by decide, handleRoot_fetches_first_commit upWorld {} (some oldCommit) (postOf threeBody)
    threePayload rfl rfl (by rfl) (by decide)⟩

/-- C3: on a POST request that stops before the fetch step (the body cannot be
read, or it does not parse, or the parsed payload has no commits) the handler
makes no call to `getCommit`, no network call, and leaves the variable `commit`
as it was. -/
theorem handleRoot_abort_keeps_commit (w : World) (f : Flags) (s : Option Commit)
    (r : HttpRequest) (hm : r.Method = "POST")
    (habort : r.Body.err ≠ none ∨ (∃ e, w.unmarshalPayload r.Body.data = .error e) ∨
      (∃ p, w.unmarshalPayload r.Body.data = .ok p ∧ p.Commits = [])) :
    fetchCalls (handleRoot w f s r).trace = [] ∧
    networkCalls (handleRoot w f s r).trace = [] ∧
    (handleRoot w f s r).commit = s := by
  cases hb : r.Body.err with
  | some e =>
    rw [handleRoot_read_error w f s r e hm hb]
    exact ⟨rfl, rfl, rfl⟩
  | none =>
    rcases habort with h | ⟨e, h⟩ | ⟨p, h, hp⟩
    · exact absurd hb h
    · rw [handleRoot_parse_error w f s r e hm hb h]
      exact ⟨rfl, rfl, rfl⟩
    · have hlen : p.Commits.length = 0 := by rw [hp]; rfl
      rw [handleRoot_no_commits w f s r p hm hb h hlen]
      exact ⟨rfl, rfl, rfl⟩

theorem handleRoot_abort_keeps_commit_witness :
    fetchCalls (handleRoot upWorld {} (some oldCommit) (postOf emptyBody)).trace = [] ∧
    networkCalls (handleRoot upWorld {} (some oldCommit) (postOf emptyBody)).trace = [] ∧
    (handleRoot upWorld {} (some oldCommit) (postOf emptyBody)).commit = some oldCommit :=
  handleRoot_abort_keeps_commit upWorld {} (some oldCommit) (postOf emptyBody) rfl
    (Or.inr (Or.inr ⟨{}, by simp [upWorld, decodePayload, postOf, emptyBody, pushBody, noIdBody, asciiBytes], rfl⟩))

/-- C4: on a POST request whose body parses to a payload with a non-empty
commit list and whose fetch returns the record `c` and no error, the variable
`commit` after the handler points to `c`, whatever it was before, and the
handler ends with the log line of the addition and deletion counts. -/
theorem handleRoot_fetch_success_replaces (w : World) (f : Flags) (s : Option Commit)
    (r : HttpRequest) (p : Payload) (c : Commit) (hm : r.Method = "POST")
    (hb : r.Body.err = none) (hp : w.unmarshalPayload r.Body.data = .ok p)
    (h : 0 < p.Commits.length)
    (hc : (getCommit w f p.Commits[0].ID).commit = some c)
    (he : (getCommit w f p.Commits[0].ID).err = none) :
    (handleRoot w f s r).commit = some c ∧
    (handleRoot w f s r).trace.getLast? = some (Event.logPrintf "added: %d, removed: %d") := by
  rw [handleRoot_fetch w f s r p hm hb hp h]
  refine ⟨hc, ?_⟩
  simp only [he]
  exact List.getLast?_concat _

theorem handleRoot_fetch_success_replaces_witness :
    (handleRoot upWorld {} (some oldCommit) (postOf pushBody)).commit = some apiCommit ∧
    (handleRoot upWorld {} (some oldCommit) (postOf pushBody)).trace.getLast?
      = some (Event.logPrintf "added: %d, removed: %d") :=
  handleRoot_fetch_success_replaces upWorld {} (some oldCommit) (postOf pushBody) pushPayload
    apiCommit rfl rfl (by simp [upWorld, decodePayload, postOf]) (by decide) (by decide) (by decide)

/-- C5: on a request whose method is not exactly "POST" the handler does
nothing at all: it reads no body, calls no fetcher, writes nothing to the
response, and leaves the variable `commit` as it was. -/
theorem handleRoot_non_post_is_noop (w : World) (f : Flags) (s : Option Commit)
    (r : HttpRequest) (hm : r.Method ≠ "POST") :
    (handleRoot w f s r).trace = [] ∧
    bodyReads (handleRoot w f s r).trace = 0 ∧
    fetchCalls (handleRoot w f s r).trace = [] ∧
    responseWrites (handleRoot w f s r).trace = [] ∧
    (handleRoot w f s r).commit = s := by
  rw [handleRoot_non_post w f s r hm]
  exact ⟨rfl, rfl, rfl, rfl, rfl⟩

theorem handleRoot_non_post_is_noop_witness :
    (handleRoot upWorld {} (some oldCommit) { Method := "GET", Body := { data := pushBody } }).trace = [] ∧
    bodyReads (handleRoot upWorld {} (some oldCommit) { Method := "GET", Body := { data := pushBody } }).trace = 0 ∧
    fetchCalls (handleRoot upWorld {} (some oldCommit) { Method := "GET", Body := { data := pushBody } }).trace = [] ∧
    responseWrites (handleRoot upWorld {} (some oldCommit) { Method := "GET", Body := { data := pushBody } }).trace = [] ∧
    (handleRoot upWorld {} (some oldCommit) { Method := "GET", Body := { data := pushBody } }).commit
      = some oldCommit :=
  handleRoot_non_post_is_noop upWorld {} (some oldCommit) { Method := "GET", Body := { data := pushBody } }
    (by decide)

/-- C6 as stated fails: on a POST request whose body cannot be read the handler
writes the status 400, and the body it writes is the message followed by a
newline, not the message alone. -/
theorem handleRoot_error_body_has_newline :
    unreadablePost.Method = "POST" ∧ unreadablePost.Body.err ≠ none ∧
    statusWritten (handleRoot upWorld {} none unreadablePost).trace = [400] ∧
    bodyWritten (handleRoot upWorld {} none unreadablePost).trace = "can't read body\n" ∧
    bodyWritten (handleRoot upWorld {} none unreadablePost).trace ≠ "can't read body" := by
  refine ⟨rfl, by decide, by decide, by decide, by decide⟩

/-- C6, amended: on a POST request the handler writes the status 400 with the
body "can't read body" followed by a newline exactly when reading the request
body fails; when the body is read it writes nothing to the response (no header
field, no status, no body), whatever happens afterwards, and it returns
normally. -/
theorem handleRoot_response (w : World) (f : Flags) (s : Option Commit) (r : HttpRequest)
    (hm : r.Method = "POST") :
    ((statusWritten (handleRoot w f s r).trace = [400] ∧
        bodyWritten (handleRoot w f s r).trace = "can't read body\n") ↔ r.Body.err ≠ none) ∧
    (r.Body.err = none →
      responseWrites (handleRoot w f s r).trace = [] ∧
      statusWritten (handleRoot w f s r).trace = [] ∧
      bodyWritten (handleRoot w f s r).trace = "" ∧
      panics (handleRoot w f s r).trace = false) := by
  cases hb : r.Body.err with
  | some e =>
    have h1 : statusWritten (handleRoot w f s r).trace = [400] ∧
        bodyWritten (handleRoot w f s r).trace = "can't read body\n" := by
      rw [handleRoot_read_error w f s r e hm hb]
      exact ⟨rfl, bodyWritten_read_error⟩
    exact ⟨⟨fun _ => by simp, fun _ => h1⟩, fun h => by simp at h⟩
  | none =>
    have h2 : responseWrites (handleRoot w f s r).trace = [] ∧
        panics (handleRoot w f s r).trace = false := by
      cases hp : w.unmarshalPayload r.Body.data with
      | error e =>
        rw [handleRoot_parse_error w f s r e hm hb hp]
        exact ⟨rfl, by simp [panics]⟩
      | ok p =>
        by_cases hlen : p.Commits.length = 0
        · rw [handleRoot_no_commits w f s r p hm hb hp hlen]
          exact ⟨rfl, by simp [panics]⟩
        · rw [handleRoot_fetch w f s r p hm hb hp (Nat.pos_of_ne_zero hlen)]
          obtain ⟨q1, q2, _⟩ := getCommit_quiet w f p.Commits[0].ID
          simp only [responseWrites_append, panics_append, q1, q2]
          cases (getCommit w f p.Commits[0].ID).err <;> exact ⟨rfl, by simp [panics]⟩
    have h3 := statusWritten_of_no_writes _ h2.1
    have h4 := bodyWritten_of_no_writes _ h2.1
    refine ⟨⟨fun h => ?_, fun h => absurd rfl h⟩, fun _ => ⟨h2.1, h3, h4, h2.2⟩⟩
    rw [h3] at h
    exact absurd h.1 (by simp)

theorem handleRoot_response_witness :
    (statusWritten (handleRoot upWorld {} (some oldCommit) unreadablePost).trace = [400] ∧
      bodyWritten (handleRoot upWorld {} (some oldCommit) unreadablePost).trace
        = "can't read body\n") ∧
    (responseWrites (handleRoot upWorld {} (some oldCommit) (postOf brokenBody)).trace = [] ∧
      statusWritten (handleRoot upWorld {} (some oldCommit) (postOf brokenBody)).trace = [] ∧
      bodyWritten (handleRoot upWorld {} (some oldCommit) (postOf brokenBody)).trace = "" ∧
      panics (handleRoot upWorld {} (some oldCommit) (postOf brokenBody)).trace = false) ∧
    (responseWrites (handleRoot upWorld {} (some oldCommit) (postOf emptyBody)).trace = [] ∧
      statusWritten (handleRoot upWorld {} (some oldCommit) (postOf emptyBody)).trace = [] ∧
      bodyWritten (handleRoot upWorld {} (some oldCommit) (postOf emptyBody)).trace = "" ∧
      panics (handleRoot upWorld {} (some oldCommit) (postOf emptyBody)).trace = false) ∧
    (responseWrites (handleRoot downWorld {} (some oldCommit) (postOf pushBody)).trace = [] ∧
      statusWritten (handleRoot downWorld {} (some oldCommit) (postOf pushBody)).trace = [] ∧
      bodyWritten (handleRoot downWorld {} (some oldCommit) (postOf pushBody)).trace = "" ∧
      panics (handleRoot downWorld {} (some oldCommit) (postOf pushBody)).trace = false) ∧
    (responseWrites (handleRoot upWorld {} (some oldCommit) (postOf pushBody)).trace = [] ∧
      statusWritten (handleRoot upWorld {} (some oldCommit) (postOf pushBody)).trace = [] ∧
      bodyWritten (handleRoot upWorld {} (some oldCommit) (postOf pushBody)).trace = "" ∧
      panics (handleRoot upWorld {} (some oldCommit) (postOf pushBody)).trace = false) :=
  ⟨(handleRoot_response upWorld {} (some oldCommit) unreadablePost rfl).1.mpr (by decide),
   (handleRoot_response upWorld {} (some oldCommit) (postOf brokenBody) rfl).2 rfl,
   (handleRoot_response upWorld {} (some oldCommit) (postOf emptyBody) rfl).2 rfl,
   (handleRoot_response downWorld {} (some oldCommit) (postOf pushBody) rfl).2 rfl,
   (handleRoot_response upWorld {} (some oldCommit) (postOf pushBody) rfl).2 rfl⟩

/-- C7 as stated fails: for the commit id "a b" the URL of the request that
`getCommit` hands to the transport reads `.../commits/a%20b`, which is not the
concatenation of the base URL, the project id and the commit id. -/
theorem getCommit_url_is_parsed :
    (networkCalls (getCommit upWorld labFlags "a b").trace).map (fun req => req.URL.String)
      = ["https://gitlab.com/api/v4/projects/42/repository/commits/a%20b"] ∧
    labFlags.argGitlab ++ "/api/v4/projects/" ++ labFlags.argProject ++ "/repository/commits/" ++ "a b"
      = "https://gitlab.com/api/v4/projects/42/repository/commits/a b" ∧
    "https://gitlab.com/api/v4/projects/42/repository/commits/a%20b"
      ≠ "https://gitlab.com/api/v4/projects/42/repository/commits/a b" := by
  refine ⟨by decide, by decide, by decide⟩

/-- C7, amended: for every base URL `g`, project id `p`, token `t` and commit
id `s`, `getCommit` calls `http.NewRequest` with the method GET, no body and the
string `g ++ "/api/v4/projects/" ++ p ++ "/repository/commits/" ++ s`; when
that string parses, the one request handed to the transport has the method GET,
no body, as its URL the result of `url.Parse` on that string with an empty
port removed from the host, and the single header PRIVATE-TOKEN with the value
`t`; when it does not parse, no request is handed over. -/
theorem getCommit_request (w : World) (g p t s : String) :
    Event.newRequest "GET" (g ++ "/api/v4/projects/" ++ p ++ "/repository/commits/" ++ s) false
      ∈ (getCommit w ⟨g, p, t⟩ s).trace ∧
    networkCalls (getCommit w ⟨g, p, t⟩ s).trace =
      (match w.urlParse (g ++ "/api/v4/projects/" ++ p ++ "/repository/commits/" ++ s) with
       | .ok u => [⟨"GET", { u with Host := removeEmptyPort u.Host }, [("Private-Token", t)], none⟩]
       | .error _ => []) ∧
    ∀ req ∈ networkCalls (getCommit w ⟨g, p, t⟩ s).trace,
      req.Method = "GET" ∧ req.Body = none ∧
      req.Header.Values "PRIVATE-TOKEN" = [t] ∧ req.Header.length = 1 ∧
      ∃ u, w.urlParse (g ++ "/api/v4/projects/" ++ p ++ "/repository/commits/" ++ s) = .ok u ∧
        req.URL = { u with Host := removeEmptyPort u.Host } := by
  have hurl : commitURL ⟨g, p, t⟩ s = g ++ "/api/v4/projects/" ++ p ++ "/repository/commits/" ++ s := rfl
  have hcalls : networkCalls (getCommit w ⟨g, p, t⟩ s).trace =
      (match w.urlParse (g ++ "/api/v4/projects/" ++ p ++ "/repository/commits/" ++ s) with
       | .ok u => [⟨"GET", { u with Host := removeEmptyPort u.Host }, [("Private-Token", t)], none⟩]
       | .error _ => []) := by
    rw [getCommit_eq, hurl]
    repeat' split
    all_goals simp_all [networkCalls, specRequest]
  refine ⟨?_, hcalls, ?_⟩
  · rw [getCommit_eq]
    repeat' split
    all_goals simp [commitURL]
  · intro req hreq
    rw [hcalls] at hreq
    cases hu : w.urlParse (g ++ "/api/v4/projects/" ++ p ++ "/repository/commits/" ++ s) with
    | error e => simp [hu] at hreq
    | ok u =>
      simp only [hu, List.mem_singleton] at hreq
      subst hreq
      exact ⟨rfl, rfl, by simp [Header.Values, canonical_private_token], rfl, u, rfl, rfl⟩

theorem getCommit_request_witness :
    Event.newRequest "GET"
        ("https://gitlab.com" ++ "/api/v4/projects/" ++ "42" ++ "/repository/commits/" ++ "abc123") false
      ∈ (getCommit upWorld ⟨"https://gitlab.com", "42", "glpat-t0ken"⟩ "abc123").trace ∧
    networkCalls (getCommit upWorld ⟨"https://gitlab.com", "42", "glpat-t0ken"⟩ "abc123").trace =
      [⟨"GET", ⟨"https", "gitlab.com", "/api/v4/projects/42/repository/commits/abc123", "", ""⟩,
        [("Private-Token", "glpat-t0ken")], none⟩] :=
  ⟨(getCommit_request upWorld "https://gitlab.com" "42" "glpat-t0ken" "abc123").1,
   (getCommit_request upWorld "https://gitlab.com" "42" "glpat-t0ken" "abc123").2.1.trans
     (by decide)⟩

/-- C8: `getCommit` and its four stages.  The error it returns is the error of
the first failing stage, and it returns an error exactly when a stage fails;
with an error it returns no record; the stages it runs are those up to and
including the first failing one, so that no network call is made when request
construction fails; when no stage fails it returns the parsed record and no
error. -/
theorem getCommit_stages (w : World) (f : Flags) (id : String) :
    (getCommit w f id).err = (firstFailure w f id).map Prod.snd ∧
    (getCommit w f id).err.isSome = (firstFailure w f id).isSome ∧
    (getCommit w f id).commit.isNone = (firstFailure w f id).isSome ∧
    stagesRun (getCommit w f id).trace = stagesThrough ((firstFailure w f id).map Prod.fst) ∧
    ((firstFailure w f id).map Prod.fst = some Stage.construct →
      networkCalls (getCommit w f id).trace = []) ∧
    (firstFailure w f id = none →
      (getCommit w f id).err = none ∧
      ∃ c, parsedRecord w f id = some c ∧ (getCommit w f id).commit = some c) := by
  rw [getCommit_eq]
  unfold firstFailure parsedRecord
  rw [NewRequest_GET]
  cases h1 : w.urlParse (commitURL f id) with
  | error e => simp [stagesRun, stagesThrough, networkCalls]
  | ok u =>
    simp only [withToken_constructed]
    cases h2 : w.clientDo (specRequest f u) with
    | error e => simp [stagesRun, stagesThrough]
    | ok resp =>
      cases h3 : resp.Body.err with
      | some e => simp [h3, stagesRun, stagesThrough]
      | none =>
        cases h4 : w.unmarshalCommit resp.Body.data with
        | error e => simp [h3, h4, stagesRun, stagesThrough]
        | ok c => simp [h3, h4, stagesRun, stagesThrough]

/-- C9, at an input where the code departs from it: the API cannot be reached
when the program starts.  The error of the startup fetch is dropped, and the
variable `commit` that the handlers start with is the nil pointer, not a
pointer to a zero `Commit`. -/
theorem mainStart_fetch_failure_leaves_nil :
    (getCommit downWorld {} "master").err = some ⟨"dial tcp: connection refused"⟩ ∧
    (mainStart downWorld {}).commit = none ∧
    (mainStart downWorld {}).commit ≠ some Commit.zero := by
  refine ⟨by decide, by decide, by decide⟩

/-- C10 as stated fails: a POST request whose body is read and parses to a
payload with one commit, the commit carrying no id; the handler calls
`getCommit` with the empty string. -/
theorem handleRoot_passes_empty_id :
    (postOf noIdBody).Method = "POST" ∧ (postOf noIdBody).Body.err = none ∧
    decodedIds (upWorld.unmarshalPayload (postOf noIdBody).Body.data) = some [""] ∧
    fetchCalls (handleRoot upWorld {} none (postOf noIdBody)).trace = [""] := by
  refine ⟨rfl, rfl, by decide, by decide⟩

/-- C10, amended: the startup call of `getCommit` passes the non-empty id
"master"; on a POST request whose body parses to a payload with a non-empty
commit list the handler passes the id of the first commit as the payload gives
it, so the id passed is non-empty exactly when that id is. -/
theorem getCommit_ids_passed (w0 w : World) (f : Flags) (s : Option Commit) (r : HttpRequest)
    (p : Payload) (hm : r.Method = "POST") (hb : r.Body.err = none)
    (hp : w.unmarshalPayload r.Body.data = .ok p) (h : 0 < p.Commits.length) :
    fetchCalls (mainStart w0 f).trace = ["master"] ∧ "master" ≠ "" ∧
    fetchCalls (handleRoot w f s r).trace = [p.Commits[0].ID] ∧
    ((∀ id ∈ fetchCalls (handleRoot w f s r).trace, id ≠ "") ↔ p.Commits[0].ID ≠ "") := by
  have h1 := handleRoot_fetchCalls w f s r p hm hb hp h
  refine ⟨?_, by decide, h1, ?_⟩
  · rw [mainStart_eq]
    exact getCommit_fetchCalls w0 f "master"
  · rw [h1]
    simp

theorem getCommit_ids_passed_witness :
    fetchCalls (mainStart downWorld {}).trace = ["master"] ∧ "master" ≠ "" ∧
    fetchCalls (handleRoot upWorld {} none (postOf pushBody)).trace = ["abc123"] ∧
    ((∀ id ∈ fetchCalls (handleRoot upWorld {} none (postOf pushBody)).trace, id ≠ "") ↔
      "abc123" ≠ "") :=
  getCommit_ids_passed downWorld upWorld {} none (postOf pushBody) pushPayload rfl rfl
    (by simp [upWorld, decodePayload, postOf]) (by decide)

end Hook
